import Mathlib

/-!
Verification of the submission renderer and field-redaction engine of
`src/util/util.js` (formio).  JavaScript values are shallowly embedded as
the inductive type `JsVal`; the lodash helpers (`_.get`, `_.set`, `_.map`,
`_.each`) and the small external dependencies are modelled explicitly next
to the functions of the source file that use them.
-/

namespace Formio

/-- A JavaScript runtime value: strings, numbers (modelled as integers,
which covers every value appearing in this code), booleans, `null`,
`undefined`, arrays and plain objects (ordered own-property lists). -/
inductive JsVal where
  | vStr : String → JsVal
  | vNum : Int → JsVal
  | vBool : Bool → JsVal
  | vNull : JsVal
  | vUndefined : JsVal
  | vArr : List JsVal → JsVal
  | vObj : List (String × JsVal) → JsVal

open JsVal

/-- JavaScript truthiness: `''`, `0`, `false`, `null`, `undefined` are
falsy; every array and object is truthy. -/
def truthy : JsVal → Bool
  | vStr s => s ≠ ""
  | vNum n => n ≠ 0
  | vBool b => b
  | vNull => false
  | vUndefined => false
  | vArr _ => true
  | vObj _ => true

mutual

/-- JavaScript string coercion (`String(v)` / `v.toString()`); arrays
stringify as their elements joined by `,` with `null`/`undefined` becoming
the empty string, plain objects as `[object Object]`. -/
def jsToString : JsVal → String
  | vStr s => s
  | vNum n => toString n
  | vBool b => if b then "true" else "false"
  | vNull => "null"
  | vUndefined => "undefined"
  | vArr l => String.intercalate "," (jsToStringElems l)
  | vObj _ => "[object Object]"

/-- Element-wise stringification used by `Array.prototype.join`. -/
def jsToStringElems : List JsVal → List String
  | [] => []
  | vNull :: vs => "" :: jsToStringElems vs
  | vUndefined :: vs => "" :: jsToStringElems vs
  | v :: vs => jsToString v :: jsToStringElems vs

end

/-- `Array.prototype.join` coercion of one element: `null` and `undefined`
join as the empty string. -/
def joinElem : JsVal → String
  | vNull => ""
  | vUndefined => ""
  | v => jsToString v

/-- The `length` property: defined for strings and arrays, `undefined`
(modelled as `none`) otherwise. -/
def jsLength : JsVal → Option Nat
  | vStr s => some s.length
  | vArr l => some l.length
  | _ => none

/-- Whether a path string contains a dot, i.e. is a deep path. -/
def containsDot (s : String) : Bool := s.data.contains '.'

/-- Accumulator for `splitSegs`. -/
def splitSegsAux : List Char → List Char → List String
  | [], acc => [String.mk acc.reverse]
  | c :: cs, acc =>
    if c = '.' then String.mk acc.reverse :: splitSegsAux cs []
    else splitSegsAux cs (c :: acc)

/-- Split a dotted path into its segments (splitting on `"."`). -/
def splitSegs (s : String) : List String := splitSegsAux s.data []

/-- Digit-list parser for `strToNat?`. -/
def strToNatAux : List Char → Nat → Option Nat
  | [], acc => some acc
  | c :: cs, acc =>
    if '0' ≤ c ∧ c ≤ '9' then strToNatAux cs (acc * 10 + (c.toNat - 48))
    else none

/-- Parse a path segment as a canonical numeric array index: all digits,
nonempty, and no leading zero (JavaScript array access by the
non-canonical string `"012"` misses the element at index 12). -/
def strToNat? (s : String) : Option Nat :=
  match s.data with
  | [] => none
  | ['0'] => some 0
  | '0' :: _ :: _ => none
  | c :: cs => strToNatAux (c :: cs) 0

/-- Own-property read of a single path segment, as JavaScript `o[k]`:
object field lookup, numeric index into an array, `none` otherwise. -/
def getOwn : JsVal → String → Option JsVal
  | vObj l, s => l.lookup s
  | vArr l, s => match strToNat? s with
    | some i => l.get? i
    | none => none
  | _, _ => none

/-- Navigate a chain of path segments, failing as soon as a segment is
missing. -/
def navPath : JsVal → List String → Option JsVal
  | v, [] => some v
  | v, s :: rest => match getOwn v s with
    | some w => navPath w rest
    | none => none

/-- The path resolution of lodash `_.get`: a path without a dot is a
single key; a dotted path that is itself an own property of the object is
treated as a single key (lodash's `isKey` check); otherwise the path is
split on `.` and navigated segment by segment. -/
def jsGetPath (sub : JsVal) (p : String) : Option JsVal :=
  if ¬ containsDot p then getOwn sub p
  else match sub with
    | vObj l => match l.lookup p with
      | some w => some w
      | none => navPath sub (splitSegs p)
    | _ => navPath sub (splitSegs p)

/-- lodash `_.get(sub, p)`: `undefined` when the path is absent. -/
def jsGet (sub : JsVal) (p : String) : JsVal :=
  (jsGetPath sub p).getD vUndefined

/-- Whether the nested data tree has an own value bound at the path
(this is the sense in which a submission "contains a value at a path":
an explicitly stored `undefined` still counts as present). -/
def hasPath (sub : JsVal) (p : String) : Bool :=
  (jsGetPath sub p).isSome

/-- Set/replace a key in an ordered own-property list, preserving the
position of an existing key and appending a new one, as JavaScript
property assignment does. -/
def assocSet : List (String × JsVal) → String → JsVal → List (String × JsVal)
  | [], k, v => [(k, v)]
  | (k', v') :: rest, k, v =>
    if k' = k then (k, v) :: rest else (k', v') :: assocSet rest k v

/-- Write an element of an array at an index, padding with `undefined`
holes as JavaScript assignment beyond the current length does. -/
def listSet : List JsVal → Nat → JsVal → List JsVal
  | [], 0, v => [v]
  | [], n + 1, v => vUndefined :: listSet [] n v
  | _ :: xs, 0, v => v :: xs
  | x :: xs, n + 1, v => x :: listSet xs n v

/-- Whether the next path segment would be an array index (lodash creates
an array rather than an object for it). -/
def nextIsIndex : List String → Bool
  | s :: _ => (strToNat? s).isSome
  | [] => false

/-- The recursive core of lodash `_.set`: walk the segments, creating
missing intermediate containers, and assign at the final segment; setting
into a primitive leaves it unchanged (lodash returns non-objects as is). -/
def setAux : JsVal → List String → JsVal → JsVal
  | v, [], _ => v
  | vObj l, [s], nv => vObj (assocSet l s nv)
  | vArr l, [s], nv => match strToNat? s with
    | some i => vArr (listSet l i nv)
    | none => vArr l
  | v, [_], _ => v
  | vObj l, s :: rest, nv =>
    let child := (l.lookup s).getD vUndefined
    let child' := match child with
      | vObj _ => child
      | vArr _ => child
      | _ => if nextIsIndex rest then vArr [] else vObj []
    vObj (assocSet l s (setAux child' rest nv))
  | vArr l, s :: rest, nv => match strToNat? s with
    | some i =>
      let child := (l.get? i).getD vUndefined
      let child' := match child with
        | vObj _ => child
        | vArr _ => child
        | _ => if nextIsIndex rest then vArr [] else vObj []
      vArr (listSet l i (setAux child' rest nv))
    | none => vArr l
  | v, _ :: _, _ => v

/-- lodash `_.set(sub, p, nv)`, with the same `isKey` path resolution as
`_.get`. -/
def jsSet (sub : JsVal) (p : String) (nv : JsVal) : JsVal :=
  if ¬ containsDot p then setAux sub [p] nv
  else match sub with
    | vObj l => match l.lookup p with
      | some _ => setAux sub [p] nv
      | none => setAux sub (splitSegs p) nv
    | _ => setAux sub (splitSegs p) nv

/-- JavaScript strict equality `===` restricted to the values compared by
this code: structural on primitives; two arrays or objects reaching this
comparison are distinct heap references (an option list entry versus a
stored submission value), hence unequal. -/
def jsStrictEq : JsVal → JsVal → Bool
  | vStr a, vStr b => a = b
  | vNum a, vNum b => a = b
  | vBool a, vBool b => a = b
  | vNull, vNull => true
  | vUndefined, vUndefined => true
  | _, _ => false

/-- One `{value, label}` option pair of an option-family component. -/
structure OptPair where
  value : JsVal
  label : JsVal

/-- One flattened component definition (a schema node), with the fields
read by `renderComponentValue` and `removeProtectedFields`.  String fields
default to `""` (missing and empty are equally falsy to this code) and the
option lists are `none` when the property is absent.  The `data` field is
`some dv` when the component has a `data` property, and `dv` is `some l`
when `data.values` is a (truthy) option list. -/
structure Component where
  key : String := ""
  type : String := ""
  label : String := ""
  placeholder : String := ""
  multiple : Bool := false
  «protected» : Bool := false
  values : Option (List OptPair) := none
  data : Option (Option (List OptPair)) := none
  enableDate : Bool := false
  enableTime : Bool := false
  format : String := ""

/-- The flattened schema: an ordered mapping from dotted path to component
definition (`flattenComponents`' output, `comps` in the source). -/
def Schema := List (String × Component)

/-- `components.hasOwnProperty(key)` / `components[key]`. -/
def lookupComp (s : Schema) (k : String) : Option Component :=
  List.lookup k s

/-- In-place update of one component definition of the schema, as the
assignment `components[key].multiple = false` mutates the shared mapping. -/
def updateComp : Schema → String → Component → Schema
  | [], _, _ => []
  | (k', c') :: rest, k, c =>
    if k' = k then (k, c) :: rest else (k', c') :: updateComp rest k c

/-- `component.label || component.placeholder || component.key`. -/
def labelOf (c : Component) : String :=
  if c.label ≠ "" then c.label
  else if c.placeholder ≠ "" then c.placeholder
  else c.key

/-- The option list of an option-family component: `component.values` if
the property exists, else `component.data.values` if present and truthy,
else empty. -/
def optionList (c : Component) : List OptPair :=
  match c.values with
  | some l => l
  | none => match c.data with
    | some (some l) => l
    | _ => []

/-- The elements lodash `_.map(value, f)` iterates: array elements, the
characters of a string, the field values of an object, nothing for other
values. -/
def mapElems : JsVal → List JsVal
  | vArr l => l
  | vStr s => s.data.map (fun ch => vStr (String.mk [ch]))
  | vObj l => l.map (fun kv => kv.2)
  | _ => []

/-- The key/value entries lodash `_.each(value, f)` iterates: object
fields in order, array elements and string characters under their index
keys, nothing for other values. -/
def jsEntries : JsVal → List (String × JsVal)
  | vObj l => l
  | vArr l => (l.enum).map (fun p => (toString p.1, p.2))
  | vStr s => (s.data.enum).map (fun p => (toString p.1, vStr (String.mk [p.2])))
  | _ => []

/-- `value[0]`. -/
def jsIndex0 : JsVal → JsVal
  | vArr l => l.headD vUndefined
  | vStr s => match s.data with
    | c :: _ => vStr (String.mk [c])
    | [] => vUndefined
  | _ => vUndefined

/-- `value.length > 0` (false when `length` is `undefined`). -/
def lenPos (v : JsVal) : Bool :=
  match jsLength v with
  | some n => decide (0 < n)
  | none => false

/-- The option-family branch of the type dispatch: the first entry of the
option list whose `value` is strictly equal to the raw value supplies the
display label; with no match the raw value is kept. -/
def optionLookup (c : Component) (value : JsVal) : JsVal :=
  match (optionList c).find? (fun p => jsStrictEq p.value value) with
  | some p => p.label
  | none => value

/-- The `{label, value}` pair `renderComponentValue` returns.  The label
is always a string in this code; the value is an arbitrary JavaScript
value (the final coercion of the source is part of `renderComponentValue`
itself). -/
structure RenderedField where
  label : String
  value : JsVal

/-- `renderComponentValue(data, key, components)` of `src/util/util.js`
(lines 231-344), with two explicit parameters the JavaScript leaves
implicit: `mf` models the external `moment(value).format(pattern)` date
formatter, and `fuel` bounds the recursion depth (each recursive call of
the source consumes one unit; an exhausted call returns the degenerate
`{label: key, value: undefined}` and leaves the schema unchanged).  The
schema is threaded through and returned because the source mutates the
shared `components` mapping (`components[key].multiple = false`). -/
def renderComponentValue (mf : JsVal → String → String) :
    Nat → JsVal → String → Schema → RenderedField × Schema
  | 0, _, key, components => (⟨key, vUndefined⟩, components)
  | fuel + 1, data, key, components =>
    let value0 := jsGet data key
    let value := if truthy value0 then value0 else vStr ""
    match lookupComp components key with
    | none => (⟨key, value⟩, components)
    | some c =>
      let label := labelOf c
      if c.multiple then
        let components1 := updateComp components key { c with multiple := false }
        let r := (mapElems value).foldl
          (fun (acc : List String × Schema) sv =>
            let rr := renderComponentValue mf fuel (vObj [(key, sv)]) key acc.2
            (acc.1 ++ [joinElem rr.1.value], rr.2))
          ([], components1)
        (⟨label, vStr (String.intercalate ", " r.1)⟩, r.2)
      else
        let d : JsVal × Schema :=
          match c.type with
          | "password" => (vStr "--- PASSWORD ---", components)
          | "address" =>
            (if truthy value then
              match value with
              | vObj l => (l.lookup "formatted_address").getD vUndefined
              | _ => vUndefined
            else vStr "", components)
          | "signature" =>
            (vStr ("<img src=\"" ++ jsToString value ++ "\" />"), components)
          | "container" =>
            let r := (jsEntries value).foldl
              (fun (acc : String × Schema) e =>
                let rr := renderComponentValue mf fuel value e.1 acc.2
                (acc.1 ++ "<tr>" ++
                  "<th style=\"text-align:right;padding: 5px 10px;\">" ++
                  rr.1.label ++ "</th>" ++
                  "<td style=\"width:100%;padding:5px 10px;\">" ++
                  jsToString rr.1.value ++ "</td>" ++ "</tr>", rr.2))
              ("", components)
            (vStr ("<table border=\"1\" style=\"width:100%\">" ++ r.1 ++ "</table>"), r.2)
          | "datagrid" =>
            let columns : List Component :=
              if lenPos value then
                (jsEntries (jsIndex0 value)).foldl
                  (fun acc e =>
                    match lookupComp components e.1 with
                    | some cc => acc ++ [cc]
                    | none => acc)
                  []
              else []
            let header := "<tr>" ++
              columns.foldl
                (fun a col =>
                  a ++ "<th style=\"padding: 5px 10px;\">" ++
                  (if col.label ≠ "" then col.label else col.key) ++ "</th>")
                "" ++ "</tr>"
            let rows := ((jsEntries value).map (fun e => e.2)).foldl
              (fun (acc : String × Schema) rv =>
                let cellr := columns.foldl
                  (fun (a : String × Schema) col =>
                    let rr := renderComponentValue mf fuel rv col.key a.2
                    (a.1 ++ "<td style=\"padding:5px 10px;\">" ++
                      jsToString rr.1.value ++ "</td>", rr.2))
                  ("", acc.2)
                (acc.1 ++ "<tr>" ++ cellr.1 ++ "</tr>", cellr.2))
              ("", components)
            (vStr ("<table border=\"1\" style=\"width:100%\">" ++ header ++
              rows.1 ++ "</table>"), rows.2)
          | "datetime" =>
            let dateFormat := (if c.enableDate then c.format.toUpper else "") ++
              (if c.enableTime then " hh:mm:ss A" else "")
            (if dateFormat ≠ "" then vStr (mf value dateFormat) else value, components)
          | "radio" => (optionLookup c value, components)
          | "select" => (optionLookup c value, components)
          | "selectboxes" => (optionLookup c value, components)
          | _ => (value, components)
        let v2 := if c.«protected» then vStr "--- PROTECTED ---" else d.1
        (⟨label, if truthy v2 then vStr (jsToString v2) else vStr ""⟩, d.2)

/-- A node of the unflattened component tree walked by
`removeProtectedFields` (only the fields its callback reads, plus the
nested children). -/
inductive FormComponent where
  | mk : String → String → Bool → List FormComponent → FormComponent

/-- The component's `key`. -/
def FormComponent.key : FormComponent → String
  | .mk k _ _ _ => k

/-- The component's `type`. -/
def FormComponent.type : FormComponent → String
  | .mk _ t _ _ => t

/-- The component's `protected` flag. -/
def FormComponent.prot : FormComponent → Bool
  | .mk _ _ p _ => p

/-- The component's nested `components`. -/
def FormComponent.children : FormComponent → List FormComponent
  | .mk _ _ _ cs => cs

/-- One field-scoped redaction transform pushed onto `modifyFields`:
either the `deleteProp(path)` closure of a protected component or the
signature-masking closure. -/
inductive Rule where
  | del : String → Rule
  | sigMask : String → Rule
  deriving DecidableEq

/-- Modelled from the spec: the `delete-property` npm dependency used by
`removeProtectedFields` (not part of this repository) — navigate the
dotted path and remove the final own property; a path with no match in
the submission is a no-op, not an error (spec section 4.4). -/
def delAux : JsVal → List String → JsVal
  | v, [] => v
  | vObj l, [s] => vObj (l.filter (fun kv => kv.1 ≠ s))
  | v, [_] => v
  | vObj l, s :: rest => match l.lookup s with
    | some w => vObj (assocSet l s (delAux w rest))
    | none => vObj l
  | v, _ :: _ => v

/-- `deleteProp(path)` applied to a submission. -/
def deletePropAt (p : String) (sub : JsVal) : JsVal :=
  delAux sub (splitSegs p)

/-- Apply one computed redaction transform to one submission: the delete
closure removes the bound path; the signature closure (util.js lines
534-539) reads the stored value and overwrites the path with `''` when
the value is falsy or its `length` is below 25, else with `'YES'`. -/
def applyRule : Rule → JsVal → JsVal
  | Rule.del p, sub => deletePropAt p sub
  | Rule.sigMask p, sub =>
    let data := jsGet sub p
    let masked :=
      if ¬ truthy data then "" else
        match jsLength data with
        | some n => if n < 25 then "" else "YES"
        | none => "YES"
    jsSet sub p (vStr masked)

/-- Modelled from the spec: the `eachComponent` walk of the external
`formio-utils` package with `includeAll = true` (spec section 4.4 — every
node is visited, a node's dotted path extends its parent's by one `.`
separated segment), fused with the callback of `removeProtectedFields`
(util.js lines 527-541): a protected component contributes a delete rule
at `data.` + path, else a signature component under the `index` action
contributes a mask rule there. -/
def computeRules (action : String) (pre : String) : List FormComponent → List Rule
  | [] => []
  | FormComponent.mk key ty prot children :: rest =>
    let path := pre ++ key
    let own :=
      if prot then [Rule.del ("data." ++ path)]
      else if ty = "signature" ∧ action = "index" then
        [Rule.sigMask ("data." ++ path)]
      else []
    own ++ computeRules action (path ++ ".") children ++ computeRules action pre rest

/-- `removeProtectedFields(form, action, submissions)` (util.js lines
518-551) on an already-normalized submission list: compute the rule list
once from the form's component tree, then, when it is nonempty, apply
every rule to every submission in order. -/
def removeProtectedFields (components : List FormComponent) (action : String)
    (submissions : List JsVal) : List JsVal :=
  let modifyFields := computeRules action "" components
  if modifyFields.length > 0 then
    submissions.map (fun sub => modifyFields.foldl (fun s r => applyRule r s) sub)
  else submissions

/-- `key.replace(/\./g, '.data.')` on the character list: every dot
becomes `.data.`. -/
def dotToDataL : List Char → List Char
  | [] => []
  | c :: cs =>
    if c = '.' then '.' :: 'd' :: 'a' :: 't' :: 'a' :: '.' :: dotToDataL cs
    else c :: dotToDataL cs

/-- `getSubmissionKey(key)` (util.js lines 463-465). -/
def getSubmissionKey (key : String) : String :=
  String.mk (dotToDataL key.data)

/-- `key.replace(/\.data\./g, '.')` on the character list: the leftmost
occurrence of `.data.` is replaced by a dot and scanning resumes after
the consumed match, as a global regex replace does. -/
def dataToDotL : List Char → List Char
  | [] => []
  | '.' :: 'd' :: 'a' :: 't' :: 'a' :: '.' :: cs => '.' :: dataToDotL cs
  | c :: cs => c :: dataToDotL cs

/-- `getFormComponentKey(key)` (util.js lines 476-478). -/
def getFormComponentKey (key : String) : String :=
  String.mk (dataToDotL key.data)

/-- Whether a JavaScript value is a string. -/
def JsVal.isStr : JsVal → Bool
  | vStr _ => true
  | _ => false

/-- A stand-in instance of the external `moment.js` formatter parameter
`mf`, used to instantiate concrete evaluations that contain no `datetime`
component (their results do not depend on it); universally quantified
theorems hold for every formatter. -/
def momentFmt : JsVal → String → String := fun _ _ => "Invalid date"

/-- The final string coercion of `renderComponentValue` (util.js line
342): a falsy computed value becomes the empty string, anything else its
JavaScript string form. -/
def coerceStr (v : JsVal) : JsVal :=
  if truthy v then vStr (jsToString v) else vStr ""

/-- The falsy-defaulting of the raw looked-up value (util.js lines
232-235). -/
def rawValue (data : JsVal) (key : String) : JsVal :=
  if truthy (jsGet data key) then jsGet data key else vStr ""

section Lemmas

variable {α β : Type}

/-- A predicate preserved by every step of a left fold holds of its
result. -/
theorem foldl_preserves (P : β → Prop) (f : β → α → β)
    (hf : ∀ b a, P b → P (f b a)) :
    ∀ (l : List α) (b : β), P b → P (l.foldl f b) := by
  intro l
  induction l with
  | nil => intro b hb; exact hb
  | cons a l ih => intro b hb; exact ih (f b a) (hf b a hb)

/-- Unfolding of an association-list lookup one pair at a time. -/
theorem lookup_cons (s k : String) (w : β) (l : List (String × β)) :
    List.lookup s ((k, w) :: l) = if s = k then some w else List.lookup s l := by
  by_cases h : s = k
  · simp [List.lookup, h]
  · have hb : (s == k) = false := beq_eq_false_iff_ne.mpr h
    simp [List.lookup, hb, h]

/-- Filtering away an absent key changes nothing. -/
theorem filter_ne_of_lookup_none (s : String) :
    ∀ l : List (String × JsVal), l.lookup s = none →
      l.filter (fun kv => kv.1 ≠ s) = l := by
  intro l
  induction l with
  | nil => intro _; rfl
  | cons kv l ih =>
    obtain ⟨k1, v1⟩ := kv
    intro h
    rw [lookup_cons] at h
    by_cases hk : s = k1
    · simp [hk] at h
    · rw [if_neg hk] at h
      have hne : ¬ (k1 = s) := fun e => hk e.symm
      rw [List.filter_cons, if_pos (by simp [hne]), ih h]

/-- Re-storing the value a key already holds changes nothing. -/
theorem assocSet_lookup_self (s : String) (w : JsVal) :
    ∀ l : List (String × JsVal), l.lookup s = some w →
      assocSet l s w = l := by
  intro l
  induction l with
  | nil => intro h; simp [List.lookup] at h
  | cons kv l ih =>
    obtain ⟨k1, v1⟩ := kv
    intro h
    rw [lookup_cons] at h
    by_cases hk : s = k1
    · rw [if_pos hk] at h
      simp only [Option.some.injEq] at h
      rw [assocSet, if_pos hk.symm, hk, h]
    · rw [if_neg hk] at h
      have hne : ¬ (k1 = s) := fun e => hk e.symm
      rw [assocSet, if_neg hne, ih h]

/-- Deleting along a path that does not resolve leaves the value
untouched. -/
theorem delAux_of_navPath_none :
    ∀ (segs : List String) (sub : JsVal), navPath sub segs = none →
      delAux sub segs = sub := by
  intro segs
  induction segs with
  | nil => intro sub h; simp [navPath] at h
  | cons s rest ih =>
    intro sub h
    rw [navPath] at h
    cases rest with
    | nil =>
      cases sub with
      | vObj l =>
        cases hlk : l.lookup s with
        | some w => simp [getOwn, hlk, navPath] at h
        | none =>
          show delAux (vObj l) [s] = vObj l
          simp only [delAux]
          rw [filter_ne_of_lookup_none s l hlk]
      | vStr a => simp [delAux]
      | vNum a => simp [delAux]
      | vBool a => simp [delAux]
      | vNull => simp [delAux]
      | vUndefined => simp [delAux]
      | vArr a => simp [delAux]
    | cons s' rest' =>
      cases sub with
      | vObj l =>
        cases hlk : l.lookup s with
        | some w =>
          have hw : navPath w (s' :: rest') = none := by
            simpa [getOwn, hlk] using h
          simp [delAux, hlk, ih w hw, assocSet_lookup_self s w l hlk]
        | none => simp [delAux, hlk]
      | vStr a => simp [delAux]
      | vNum a => simp [delAux]
      | vBool a => simp [delAux]
      | vNull => simp [delAux]
      | vUndefined => simp [delAux]
      | vArr a => simp [delAux]

/-- After updating a key that is present, looking it up returns the new
component. -/
theorem lookupComp_updateComp_self :
    ∀ (s : List (String × Component)) (k : String) (c0 c : Component),
      lookupComp s k = some c0 → lookupComp (updateComp s k c) k = some c := by
  intro s
  induction s with
  | nil => intro k c0 c h; simp [lookupComp, List.lookup] at h
  | cons kv s ih =>
    obtain ⟨k1, c1⟩ := kv
    intro k c0 c h
    rw [lookupComp, lookup_cons] at h
    by_cases hk : k = k1
    · rw [updateComp, if_pos hk.symm]
      simp [lookupComp, lookup_cons]
    · rw [if_neg hk] at h
      have hne : ¬ (k1 = k) := fun e => hk e.symm
      rw [updateComp, if_neg hne]
      simp only [lookupComp, lookup_cons, if_neg hk]
      exact ih k c0 c h

/-- Updating one key leaves the lookup of every other key unchanged. -/
theorem lookupComp_updateComp_ne :
    ∀ (s : List (String × Component)) (k k' : String) (c : Component),
      k ≠ k' → lookupComp (updateComp s k c) k' = lookupComp s k' := by
  intro s
  induction s with
  | nil => intro k k' c _; rfl
  | cons kv s ih =>
    obtain ⟨k1, c1⟩ := kv
    intro k k' c hne
    rw [updateComp]
    by_cases hk : k1 = k
    · rw [if_pos hk]
      have h1 : ¬ (k' = k) := fun e => hne e.symm
      simp only [lookupComp, lookup_cons, if_neg h1, if_neg (hk ▸ h1)]
    · rw [if_neg hk]
      simp only [lookupComp, lookup_cons]
      by_cases h2 : k' = k1
      · rw [if_pos h2, if_pos h2]
      · rw [if_neg h2, if_neg h2]
        exact ih k k' c hne

/-- Clearing an already-clear `multiple` flag is the identity on the
component record. -/
theorem component_clear_multiple_eq (c : Component) (h : c.multiple = false) :
    { c with multiple := false } = c := by
  cases c
  simp_all

/-- A single-value protected component renders to the masked constant no
matter what its type dispatch computed (util.js lines 337-339 run after
the switch). -/
theorem render_protected_single (mf : JsVal → String → String) (f : Nat) (d : JsVal)
    (key : String) (s : Schema) (c : Component)
    (h : lookupComp s key = some c) (hm : c.multiple = false)
    (hp : c.«protected» = true) :
    (renderComponentValue mf (f + 1) d key s).1.value = vStr "--- PROTECTED ---" := by
  simp only [renderComponentValue, h, hm, hp]
  simp [truthy, jsToString]

/-- The only mutation `renderComponentValue` performs on the schema is
clearing a `multiple` flag, so a schema entry whose `multiple` flag is
already clear is left exactly as it was by every render, at every key. -/
theorem render_lookup_fixed (mf : JsVal → String → String) :
    ∀ (fuel : Nat) (d : JsVal) (k : String) (s : Schema) (key : String) (c : Component),
      c.multiple = false → lookupComp s key = some c →
      lookupComp ((renderComponentValue mf fuel d k s).2) key = some c := by
  intro fuel
  induction fuel with
  | zero => intro d k s key c _ h; simpa [renderComponentValue] using h
  | succ f ih =>
    intro d k s key c hm h
    simp only [renderComponentValue]
    cases hLk : lookupComp s k with
    | none => simpa using h
    | some ck =>
      simp only []
      by_cases hmk : ck.multiple = true
      · have hkey : k ≠ key := by
          intro e
          subst e
          rw [h] at hLk
          cases hLk
          rw [hm] at hmk
          exact Bool.false_ne_true hmk
        simp only [hmk, if_true]
        refine foldl_preserves (fun st : List String × Schema => lookupComp st.2 key = some c)
          _ ?_ _ _ ?_
        · intro b a hb
          exact ih _ _ _ key c hm hb
        · show lookupComp (updateComp s k { ck with multiple := false }) key = some c
          rw [lookupComp_updateComp_ne s k key _ hkey]
          exact h
      · rw [Bool.not_eq_true] at hmk
        simp only [hmk, Bool.false_eq_true, if_false]
        split
        · exact h
        · exact h
        · exact h
        · refine foldl_preserves (fun st : String × Schema => lookupComp st.2 key = some c)
            _ ?_ _ _ ?_
          · intro b a hb
            exact ih _ _ _ key c hm hb
          · exact h
        · refine foldl_preserves (fun st : String × Schema => lookupComp st.2 key = some c)
            _ ?_ _ _ ?_
          · intro b a hb
            refine foldl_preserves (fun st : String × Schema => lookupComp st.2 key = some c)
              _ ?_ _ _ ?_
            · intro b' a' hb'
              exact ih _ _ _ key c hm hb'
            · exact hb
          · exact h
        · exact h
        · exact h
        · exact h
        · exact h
        · exact h

/-- Rendering a single-value component whose type recurses into no
sub-render (anything but `container` and `datagrid`) returns the schema
exactly as it was. -/
theorem render_schema_unchanged (mf : JsVal → String → String) (f : Nat) (d : JsVal)
    (k : String) (s : Schema) (c : Component)
    (h : lookupComp s k = some c) (hm : c.multiple = false)
    (h1 : c.type ≠ "container") (h2 : c.type ≠ "datagrid") :
    (renderComponentValue mf f d k s).2 = s := by
  cases f with
  | zero => rfl
  | succ f =>
    simp only [renderComponentValue, h, hm, Bool.false_eq_true, if_false]
    split
    · rfl
    · rfl
    · rfl
    · exact absurd (by assumption : c.type = "container") h1
    · exact absurd (by assumption : c.type = "datagrid") h2
    · rfl
    · rfl
    · rfl
    · rfl
    · rfl

/-- One step of the per-element fold of the `multiple` branch over a
schema entry that is protected with a cleared `multiple` flag appends the
masked constant and keeps that entry intact. -/
theorem fold_mask (mf : JsVal → String → String) (f : Nat) (key : String) :
    ∀ (l : List JsVal) (init : List String) (s : Schema) (c : Component),
      lookupComp s key = some c → c.multiple = false → c.«protected» = true →
      (l.foldl (fun (acc : List String × Schema) sv =>
          (acc.1 ++ [joinElem (renderComponentValue mf (f + 1) (vObj [(key, sv)]) key acc.2).1.value],
            (renderComponentValue mf (f + 1) (vObj [(key, sv)]) key acc.2).2)) (init, s)).1
        = init ++ l.map (fun _ => "--- PROTECTED ---") := by
  intro l
  induction l with
  | nil => intro init s c _ _ _; simp
  | cons v vs ih =>
    intro init s c hl hm hp
    have hv : joinElem (renderComponentValue mf (f + 1) (vObj [(key, v)]) key s).1.value
        = "--- PROTECTED ---" := by
      rw [render_protected_single mf f (vObj [(key, v)]) key s c hl hm hp]
      simp [joinElem, jsToString]
    have hs := render_lookup_fixed mf (f + 1) (vObj [(key, v)]) key s key c hm hl
    simp only [List.foldl, hv]
    rw [ih (init ++ ["--- PROTECTED ---"]) _ c hs hm hp]
    simp

/-- A fold whose per-element render leaves the schema untouched is the
map of the independent per-element renders over that same schema. -/
theorem fold_const_state (mf : JsVal → String → String) (f : Nat) (key : String)
    (s : Schema)
    (hstable : ∀ sv, (renderComponentValue mf f (vObj [(key, sv)]) key s).2 = s) :
    ∀ (l : List JsVal) (init : List String),
      l.foldl (fun (acc : List String × Schema) sv =>
          (acc.1 ++ [joinElem (renderComponentValue mf f (vObj [(key, sv)]) key acc.2).1.value],
            (renderComponentValue mf f (vObj [(key, sv)]) key acc.2).2)) (init, s)
        = (init ++ l.map (fun sv =>
            joinElem (renderComponentValue mf f (vObj [(key, sv)]) key s).1.value), s) := by
  intro l
  induction l with
  | nil => intro init; simp
  | cons v vs ih =>
    intro init
    simp only [List.foldl, hstable v]
    rw [ih (init ++ [joinElem (renderComponentValue mf f (vObj [(key, v)]) key s).1.value])]
    simp

/-- Splitting a dot-free character list never cuts: it returns the single
accumulated segment. -/
theorem splitSegsAux_no_dot :
    ∀ (cs acc : List Char), (∀ c ∈ cs, c ≠ '.') →
      splitSegsAux cs acc = [String.mk (acc.reverse ++ cs)] := by
  intro cs
  induction cs with
  | nil => intro acc _; simp [splitSegsAux]
  | cons c cs ih =>
    intro acc h
    have hc : c ≠ '.' := h c (by simp)
    rw [splitSegsAux, if_neg hc, ih (c :: acc) (fun x hx => h x (by simp [hx]))]
    simp

/-- Splitting a dot-free path yields the single segment itself. -/
theorem splitSegs_no_dot (p : String) (h : containsDot p = false) :
    splitSegs p = [p] := by
  rw [splitSegs, splitSegsAux_no_dot p.data []]
  · cases p
    simp
  · intro c hc e
    subst e
    rw [containsDot] at h
    simp at h
    exact h hc

/-- When lodash path resolution finds nothing, plain segment navigation
finds nothing either. -/
theorem jsGetPath_none_navPath (sub : JsVal) (p : String)
    (h : jsGetPath sub p = none) : navPath sub (splitSegs p) = none := by
  by_cases hd : containsDot p = true
  · cases sub with
    | vObj l =>
      cases hlk : l.lookup p with
      | some w => simp [jsGetPath, hd, hlk] at h
      | none => simpa [jsGetPath, hd, hlk] using h
    | vStr a => simpa [jsGetPath, hd] using h
    | vNum a => simpa [jsGetPath, hd] using h
    | vBool a => simpa [jsGetPath, hd] using h
    | vNull => simpa [jsGetPath, hd] using h
    | vUndefined => simpa [jsGetPath, hd] using h
    | vArr a => simpa [jsGetPath, hd] using h
  · have hd' : containsDot p = false := by simpa using hd
    have hg : getOwn sub p = none := by simpa [jsGetPath, hd'] using h
    rw [splitSegs_no_dot p hd', navPath, hg]

end Lemmas

/-- C1 counterexample: a protected component that is also `multiple` does
not return the masked constant — the multiplicity branch returns early
(util.js line 252) before the protected override (lines 337-339), so a
two-element value renders as the join of two per-element masks,
`"--- PROTECTED ---, --- PROTECTED ---"`, which is not the masked
constant. -/
theorem c1_counterexample :
    (renderComponentValue momentFmt 3 (vObj [("a", vArr [vStr "x", vStr "y"])]) "a"
      [("a", { key := "a", type := "textfield", multiple := true, «protected» := true })]).1.value
      = vStr "--- PROTECTED ---, --- PROTECTED ---" ∧
    vStr "--- PROTECTED ---, --- PROTECTED ---" ≠ vStr "--- PROTECTED ---" :=
  ⟨rfl, by simp⟩

/-- C1 amended: for every protected component, the single-value path
(`multiple` false) returns the masked constant regardless of declared
type; the multiple path returns early with each element rendered to the
masked constant and the results joined by `", "` — the stored content is
masked either way, but what is returned for a multiple component is the
join of masks, not the single constant. -/
theorem c1_thm (mf : JsVal → String → String) (f : Nat) (s : Schema) (key : String)
    (c : Component) (h : lookupComp s key = some c) (hp : c.«protected» = true) :
    (c.multiple = false → ∀ d, (renderComponentValue mf (f + 1) d key s).1.value
        = vStr "--- PROTECTED ---") ∧
    (c.multiple = true → ∀ d l, jsGet d key = vArr l →
        (renderComponentValue mf (f + 2) d key s).1.value
          = vStr (String.intercalate ", " (l.map (fun _ => "--- PROTECTED ---")))) := by
  constructor
  · intro hm d
    exact render_protected_single mf f d key s c h hm hp
  · intro hm d l hv
    rw [renderComponentValue]
    simp only [h, hm, if_true, hv, truthy, mapElems]
    rw [fold_mask mf f key l [] _ { c with multiple := false }
        (lookupComp_updateComp_self s key c _ h) (by simp) (by simp [hp])]
    simp

/-- C1 witness: the amended theorem applied to a concrete protected
multiple textfield with a one-element value. -/
theorem c1_witness :
    lookupComp [("a", { key := "a", type := "textfield", multiple := true, «protected» := true })] "a"
      = some { key := "a", type := "textfield", multiple := true, «protected» := true } ∧
    ({ key := "a", type := "textfield", multiple := true, «protected» := true } : Component).«protected» = true ∧
    (renderComponentValue momentFmt 2 (vObj [("a", vArr [vStr "x"])]) "a"
      [("a", { key := "a", type := "textfield", multiple := true, «protected» := true })]).1.value
      = vStr "--- PROTECTED ---" :=
  ⟨rfl, rfl,
    (c1_thm momentFmt 0
      [("a", { key := "a", type := "textfield", multiple := true, «protected» := true })]
      "a" _ rfl rfl).2 rfl (vObj [("a", vArr [vStr "x"])]) [vStr "x"] rfl⟩

/-- C2 counterexample: applying the signature-mask rule at the path
`data.sig` to a submission with no value bound there does not leave the
submission unchanged — the closure's `_.set` (util.js line 537) creates
the path and stores the empty string. -/
theorem c2_counterexample :
    hasPath (vObj [("data", vObj [])]) "data.sig" = false ∧
    applyRule (Rule.sigMask "data.sig") (vObj [("data", vObj [])])
      = vObj [("data", vObj [("sig", vStr "")])] ∧
    vObj [("data", vObj [("sig", vStr "")])] ≠ vObj [("data", (vObj [] : JsVal))] :=
  ⟨rfl, rfl, by simp⟩

/-- C2 amended: a delete rule bound to a path the submission does not
contain is a no-op (no error, nothing created); a signature-mask rule
bound to such a path is not a no-op — it writes the empty string at the
path, creating it. -/
theorem c2_thm (p : String) (sub : JsVal) (h : hasPath sub p = false) :
    applyRule (Rule.del p) sub = sub ∧
    applyRule (Rule.sigMask p) sub = jsSet sub p (vStr "") := by
  have hget : jsGetPath sub p = none := by
    rw [hasPath] at h
    exact Option.not_isSome_iff_eq_none.mp (by simp [h])
  constructor
  · show deletePropAt p sub = sub
    rw [deletePropAt]
    exact delAux_of_navPath_none (splitSegs p) sub (jsGetPath_none_navPath sub p hget)
  · simp only [applyRule]
    have hj : jsGet sub p = vUndefined := by rw [jsGet, hget]; rfl
    rw [hj]
    simp [truthy]

/-- C2 witness: the amended theorem applied to a concrete submission that
lacks the bound path. -/
theorem c2_witness :
    hasPath (vObj [("data", vObj [("x", vNum 1)])]) "data.sig" = false ∧
    applyRule (Rule.del "data.sig") (vObj [("data", vObj [("x", vNum 1)])])
      = vObj [("data", vObj [("x", vNum 1)])] ∧
    applyRule (Rule.sigMask "data.sig") (vObj [("data", vObj [("x", vNum 1)])])
      = jsSet (vObj [("data", vObj [("x", vNum 1)])]) "data.sig" (vStr "") :=
  ⟨rfl, (c2_thm "data.sig" (vObj [("data", vObj [("x", vNum 1)])]) rfl).1,
    (c2_thm "data.sig" (vObj [("data", vObj [("x", vNum 1)])]) rfl).2⟩

/-- C3 counterexample: rendering a component marked `multiple` changes
the shared flattened schema — afterwards the entry's `multiple` flag
reads `false`, though it was `true` before the call, so the suppression
is not threaded as a call parameter. -/
theorem c3_counterexample :
    (lookupComp ((renderComponentValue momentFmt 2 (vObj [("a", vArr [vStr "x"])]) "a"
        [("a", { key := "a", type := "textfield", multiple := true })]).2) "a").map
      Component.multiple = some false ∧
    (lookupComp [("a", { key := "a", type := "textfield", multiple := true })] "a").map
      Component.multiple = some true ∧
    (some false : Option Bool) ≠ some true :=
  ⟨rfl, rfl, by simp⟩

/-- C3 amended: `renderComponentValue` suppresses the `multiple` flag for
the recursive per-element calls by mutating the shared schema entry
(util.js line 246) — after the call the entry at the rendered key is the
original component with `multiple` cleared, and the flag is never
restored. -/
theorem c3_thm (mf : JsVal → String → String) (f : Nat) (s : Schema) (key : String)
    (c : Component) (h : lookupComp s key = some c) (hm : c.multiple = true) (d : JsVal) :
    lookupComp ((renderComponentValue mf (f + 1) d key s).2) key
      = some { c with multiple := false } := by
  rw [renderComponentValue]
  simp only [h, hm, if_true]
  refine foldl_preserves (fun st : List String × Schema =>
      lookupComp st.2 key = some { c with multiple := false }) _ ?_ _ _ ?_
  · intro b a hb
    exact render_lookup_fixed mf f _ key b.2 key _ (by simp) hb
  · show lookupComp (updateComp s key { c with multiple := false }) key
      = some { c with multiple := false }
    exact lookupComp_updateComp_self s key c _ h

/-- C3 witness: the amended theorem applied to a concrete schema holding
one multiple textfield. -/
theorem c3_witness :
    lookupComp [("a", { key := "a", type := "textfield", multiple := true })] "a"
      = some { key := "a", type := "textfield", multiple := true } ∧
    ({ key := "a", type := "textfield", multiple := true } : Component).multiple = true ∧
    lookupComp ((renderComponentValue momentFmt 1 (vObj []) "a"
        [("a", { key := "a", type := "textfield", multiple := true })]).2) "a"
      = some { key := "a", type := "textfield", multiple := false } :=
  ⟨rfl, rfl,
    c3_thm momentFmt 0 [("a", { key := "a", type := "textfield", multiple := true })]
      "a" { key := "a", type := "textfield", multiple := true } rfl rfl (vObj [])⟩

/-- C4 counterexample: when the path is absent from the flattened schema
the raw value is returned without the final string coercion — a stored
number 42 comes back as the number 42, not as a string. -/
theorem c4_counterexample :
    (renderComponentValue momentFmt 1 (vObj [("x", vNum 42)]) "x" []).1.value = vNum 42 ∧
    JsVal.isStr ((renderComponentValue momentFmt 1 (vObj [("x", vNum 42)]) "x" []).1.value)
      = false :=
  ⟨rfl, rfl⟩

/-- C4 amended: when the path is present in the flattened schema the
returned `value` is always a string (the multiple branch joins strings
and every other branch passes through the final coercion, which maps a
falsy computed value to `""` and stringifies anything else); but the
degenerate schema-absent passthrough returns the raw falsy-defaulted
value uncoerced. -/
theorem c4_thm (mf : JsVal → String → String) (f : Nat) (d : JsVal) (key : String)
    (s : Schema) :
    (∀ c, lookupComp s key = some c →
        JsVal.isStr ((renderComponentValue mf (f + 1) d key s).1.value) = true) ∧
    (lookupComp s key = none →
        renderComponentValue mf (f + 1) d key s = (⟨key, rawValue d key⟩, s)) := by
  constructor
  · intro c h
    rw [renderComponentValue]
    simp only [h]
    by_cases hm : c.multiple = true
    · simp only [hm, if_true]
      rfl
    · rw [Bool.not_eq_true] at hm
      simp only [hm, Bool.false_eq_true, if_false]
      rw [apply_ite JsVal.isStr]
      simp [JsVal.isStr]
  · intro h
    rw [renderComponentValue]
    simp only [h, rawValue]

/-- C4 witness: the amended theorem applied once with the key present in
the schema and once with it absent. -/
theorem c4_witness :
    JsVal.isStr ((renderComponentValue momentFmt 1 (vObj [("p", vStr "v")]) "p"
      [("p", { key := "p", type := "textfield" })]).1.value) = true ∧
    renderComponentValue momentFmt 1 (vObj [("x", vNum 42)]) "x" []
      = (⟨"x", rawValue (vObj [("x", vNum 42)]) "x"⟩, []) :=
  ⟨(c4_thm momentFmt 0 (vObj [("p", vStr "v")]) "p"
      [("p", { key := "p", type := "textfield" })]).1
    { key := "p", type := "textfield" } rfl,
    (c4_thm momentFmt 0 (vObj [("x", vNum 42)]) "x" []).2 rfl⟩

/-- C5 counterexample: for a protected signature component under context
`index` the walk appends a delete rule, not a mask rule — the signature
branch of util.js line 533 sits in the `else` of the protected check, so
the claim's "appends a mask rule exactly when the context is index" fails
for protected signatures. -/
theorem c5_counterexample :
    computeRules "index" "" [FormComponent.mk "sig" "signature" true []]
      = [Rule.del "data.sig"] ∧
    Rule.sigMask "data.sig" ∉ computeRules "index" "" [FormComponent.mk "sig" "signature" true []] := by
  constructor
  · simp [computeRules]
  · simp [computeRules]

/-- C5 amended: for a non-protected component of type `signature` (with
no children), `computeRules` appends a mask rule exactly when the context
is `index`; applying that rule to a stored string overwrites it with `""`
when its length is below 25 and with `"YES"` otherwise; and under context
`display` the whole redaction pass leaves the submission untouched. -/
theorem c5_thm (action : String) (k : String) :
    (computeRules action "" [FormComponent.mk k "signature" false []]
      = if action = "index" then [Rule.sigMask ("data." ++ k)] else []) ∧
    (∀ sub str, jsGet sub ("data." ++ k) = vStr str →
      applyRule (Rule.sigMask ("data." ++ k)) sub
        = jsSet sub ("data." ++ k) (vStr (if str.length < 25 then "" else "YES"))) ∧
    (∀ sub, removeProtectedFields [FormComponent.mk k "signature" false []] "display" [sub]
      = [sub]) := by
  refine ⟨?_, ?_, ?_⟩
  · by_cases ha : action = "index"
    · simp [computeRules, ha]
    · simp [computeRules, ha]
  · intro sub str hs
    simp only [applyRule, hs]
    by_cases h0 : str = ""
    · subst h0
      simp [truthy, jsLength]
    · simp [truthy, jsLength, h0]
  · intro sub
    simp [removeProtectedFields, computeRules]

/-- C5 witness: the amended theorem applied to a concrete non-protected
signature component, a short stored payload, and the `display` context. -/
theorem c5_witness :
    computeRules "index" "" [FormComponent.mk "sig" "signature" false []]
      = [Rule.sigMask "data.sig"] ∧
    applyRule (Rule.sigMask "data.sig") (vObj [("data", vObj [("sig", vStr "abc")])])
      = jsSet (vObj [("data", vObj [("sig", vStr "abc")])]) "data.sig" (vStr "") ∧
    removeProtectedFields [FormComponent.mk "sig" "signature" false []] "display"
      [vObj [("data", vObj [("sig", vStr "abc")])]]
      = [vObj [("data", vObj [("sig", vStr "abc")])]] :=
  ⟨(c5_thm "index" "sig").1,
    (c5_thm "index" "sig").2.1 (vObj [("data", vObj [("sig", vStr "abc")])]) "abc" rfl,
    (c5_thm "index" "sig").2.2 (vObj [("data", vObj [("sig", vStr "abc")])])⟩

/-- C6: a multiple component with an N-element stored list renders to the
N per-element single-value results joined by `", "`.  The multiplicity
branch consumes exactly one recursion level (fuel `f + 1` on the left,
`f` in each per-element call) and the per-element calls run against the
schema whose `multiple` flag at the key has been cleared, so they cannot
re-enter the multiplicity branch — no infinite recursion.  When the
component's type recurses no further (not `container`/`datagrid`), the
N results are the independent single-value renders against that
once-updated schema. -/
theorem c6_thm (mf : JsVal → String → String) (f : Nat) (s : Schema) (key : String)
    (c : Component) (h : lookupComp s key = some c) (hm : c.multiple = true)
    (d : JsVal) (l : List JsVal) (hv : jsGet d key = vArr l) :
    (renderComponentValue mf (f + 1) d key s
      = (⟨labelOf c, vStr (String.intercalate ", "
          (l.foldl (fun (acc : List String × Schema) sv =>
            (acc.1 ++ [joinElem (renderComponentValue mf f (vObj [(key, sv)]) key acc.2).1.value],
              (renderComponentValue mf f (vObj [(key, sv)]) key acc.2).2))
            ([], updateComp s key { c with multiple := false })).1)⟩,
        (l.foldl (fun (acc : List String × Schema) sv =>
            (acc.1 ++ [joinElem (renderComponentValue mf f (vObj [(key, sv)]) key acc.2).1.value],
              (renderComponentValue mf f (vObj [(key, sv)]) key acc.2).2))
            ([], updateComp s key { c with multiple := false })).2)) ∧
    (c.type ≠ "container" → c.type ≠ "datagrid" →
      (renderComponentValue mf (f + 1) d key s).1.value
        = vStr (String.intercalate ", " (l.map (fun sv =>
            joinElem (renderComponentValue mf f (vObj [(key, sv)]) key
              (updateComp s key { c with multiple := false })).1.value)))) := by
  constructor
  · rw [renderComponentValue]
    simp only [h, hm, if_true, hv, truthy, mapElems]
  · intro h1 h2
    rw [renderComponentValue]
    simp only [h, hm, if_true, hv, truthy, mapElems]
    have hlk : lookupComp (updateComp s key { c with multiple := false }) key
        = some { c with multiple := false } := lookupComp_updateComp_self s key c _ h
    have hstable : ∀ sv, (renderComponentValue mf f (vObj [(key, sv)]) key
        (updateComp s key { c with multiple := false })).2
        = updateComp s key { c with multiple := false } := fun sv =>
      render_schema_unchanged mf f (vObj [(key, sv)]) key _ _ hlk (by simp) h1 h2
    rw [fold_const_state mf f key _ hstable l []]
    simp

/-- C6 witness: the theorem applied to a concrete multiple textfield with
two elements, whose rendered value is the two single renders joined. -/
theorem c6_witness :
    lookupComp [("a", { key := "a", type := "textfield", multiple := true })] "a"
      = some { key := "a", type := "textfield", multiple := true } ∧
    ({ key := "a", type := "textfield", multiple := true } : Component).multiple = true ∧
    jsGet (vObj [("a", vArr [vStr "x", vStr "y"])]) "a" = vArr [vStr "x", vStr "y"] ∧
    (renderComponentValue momentFmt 2 (vObj [("a", vArr [vStr "x", vStr "y"])]) "a"
      [("a", { key := "a", type := "textfield", multiple := true })]).1.value = vStr "x, y" :=
  ⟨rfl, rfl, rfl, by
    have hb := (c6_thm momentFmt 1
      [("a", { key := "a", type := "textfield", multiple := true })] "a"
      { key := "a", type := "textfield", multiple := true } rfl rfl
      (vObj [("a", vArr [vStr "x", vStr "y"])]) [vStr "x", vStr "y"] rfl).2
      (by decide) (by decide)
    exact hb.trans rfl⟩

/-- C7 counterexample: a password component whose path is absent from the
submission data renders the password mask, not the empty string. -/
theorem c7_counterexample :
    jsGet (vObj []) "p" = vUndefined ∧
    (renderComponentValue momentFmt 1 (vObj []) "p"
      [("p", { key := "p", type := "password" })]).1.value = vStr "--- PASSWORD ---" ∧
    vStr "--- PASSWORD ---" ≠ vStr "" :=
  ⟨rfl, rfl, by simp⟩

/-- C7 amended: a field path absent from the submission data renders to
the empty string — and, as the renderer is a total function, without any
error — provided no branch substitutes a constant for the missing value:
when the path is also absent from the schema, or the component is marked
multiple, or the component is non-protected with a type outside the
dispatched set (`password`, `address`, `signature`, `container`,
`datagrid`, `datetime`, `radio`, `select`, `selectboxes` all render a
constant or wrapper even for missing values). -/
theorem c7_thm (mf : JsVal → String → String) (f : Nat) (d : JsVal) (key : String)
    (s : Schema) (habs : jsGet d key = vUndefined) :
    (lookupComp s key = none →
        (renderComponentValue mf (f + 1) d key s).1.value = vStr "") ∧
    (∀ c, lookupComp s key = some c → c.multiple = true →
        (renderComponentValue mf (f + 1) d key s).1.value = vStr "") ∧
    (∀ c, lookupComp s key = some c → c.«protected» = false → c.multiple = false →
        c.type ≠ "password" → c.type ≠ "address" → c.type ≠ "signature" →
        c.type ≠ "container" → c.type ≠ "datagrid" → c.type ≠ "datetime" →
        c.type ≠ "radio" → c.type ≠ "select" → c.type ≠ "selectboxes" →
        (renderComponentValue mf (f + 1) d key s).1.value = vStr "") := by
  refine ⟨?_, ?_, ?_⟩
  · intro h
    rw [renderComponentValue]
    simp [h, habs, truthy]
  · intro c h hm
    rw [renderComponentValue]
    simp only [h, hm, if_true, habs, truthy]
    simp [mapElems]
    rfl
  · intro c h hp hm t1 t2 t3 t4 t5 t6 t7 t8 t9
    rw [renderComponentValue]
    simp only [h, hm, Bool.false_eq_true, if_false, hp]
    simp [habs, truthy]

/-- C7 witness: the amended theorem applied to a schema-absent key, to a
multiple textfield, and to a plain textfield, all with absent data. -/
theorem c7_witness :
    jsGet (vObj []) "q" = vUndefined ∧
    (renderComponentValue momentFmt 1 (vObj []) "q" []).1.value = vStr "" ∧
    (renderComponentValue momentFmt 1 (vObj []) "q"
      [("q", { key := "q", type := "textfield", multiple := true })]).1.value = vStr "" ∧
    (renderComponentValue momentFmt 1 (vObj []) "q"
      [("q", { key := "q", type := "textfield" })]).1.value = vStr "" :=
  ⟨rfl,
    (c7_thm momentFmt 0 (vObj []) "q" [] rfl).1 rfl,
    (c7_thm momentFmt 0 (vObj []) "q"
      [("q", { key := "q", type := "textfield", multiple := true })] rfl).2.1
      { key := "q", type := "textfield", multiple := true } rfl rfl,
    (c7_thm momentFmt 0 (vObj []) "q"
      [("q", { key := "q", type := "textfield" })] rfl).2.2
      { key := "q", type := "textfield" } rfl rfl rfl
      (by decide) (by decide) (by decide) (by decide) (by decide) (by decide)
      (by decide) (by decide) (by decide)⟩

/-- C8 counterexample: a protected select component with a matching
option renders the protected mask, not the matched entry's label — the
protected override replaces the option lookup's result. -/
theorem c8_counterexample :
    (renderComponentValue momentFmt 1 (vObj [("color", vStr "r")]) "color"
      [("color", { key := "color", type := "select", «protected» := true, values := some [OptPair.mk (vStr "r") (vStr "Red")] })]).1.value
      = vStr "--- PROTECTED ---" ∧
    vStr "--- PROTECTED ---" ≠ vStr "Red" :=
  ⟨rfl, by simp⟩

/-- C8 amended: for a non-protected, non-multiple option-family component
(`radio`, `select`, `selectboxes`), the rendered value is the
string-coerced label of the first option-list entry (the `values`
property, else `data.values`) whose `value` is strictly equal to the
falsy-defaulted raw value; with no matching entry the raw value passes
through the final string coercion unchanged. -/
theorem c8_thm (mf : JsVal → String → String) (f : Nat) (d : JsVal) (key : String)
    (s : Schema) (c : Component) (h : lookupComp s key = some c)
    (hp : c.«protected» = false) (hm : c.multiple = false)
    (ht : c.type = "radio" ∨ c.type = "select" ∨ c.type = "selectboxes") :
    (∀ p, (optionList c).find? (fun q => jsStrictEq q.value (rawValue d key)) = some p →
        (renderComponentValue mf (f + 1) d key s).1.value = coerceStr p.label) ∧
    ((optionList c).find? (fun q => jsStrictEq q.value (rawValue d key)) = none →
        (renderComponentValue mf (f + 1) d key s).1.value = coerceStr (rawValue d key)) := by
  have core : (renderComponentValue mf (f + 1) d key s).1.value
      = coerceStr (optionLookup c (rawValue d key)) := by
    rw [renderComponentValue]
    simp only [h, hm, Bool.false_eq_true, if_false, hp]
    rcases ht with ht | ht | ht <;> simp only [ht, coerceStr, rawValue]
  constructor
  · intro p hfind
    rw [core]
    simp only [optionLookup, hfind]
  · intro hfind
    rw [core]
    simp only [optionLookup, hfind]

/-- C8 witness: the amended theorem applied to the spec's own scenario —
a select with options r/Red and b/Blue renders `"Red"` for the stored
value `"r"` and passes `"g"` through unmatched. -/
theorem c8_witness :
    (renderComponentValue momentFmt 1 (vObj [("color", vStr "r")]) "color"
      [("color", { key := "color", type := "select", values := some [OptPair.mk (vStr "r") (vStr "Red"), OptPair.mk (vStr "b") (vStr "Blue")] })]).1.value
      = vStr "Red" ∧
    (renderComponentValue momentFmt 1 (vObj [("color", vStr "g")]) "color"
      [("color", { key := "color", type := "select", values := some [OptPair.mk (vStr "r") (vStr "Red"), OptPair.mk (vStr "b") (vStr "Blue")] })]).1.value
      = vStr "g" :=
  ⟨((c8_thm momentFmt 0 (vObj [("color", vStr "r")]) "color"
      [("color", { key := "color", type := "select", values := some [OptPair.mk (vStr "r") (vStr "Red"), OptPair.mk (vStr "b") (vStr "Blue")] })]
      { key := "color", type := "select", values := some [OptPair.mk (vStr "r") (vStr "Red"), OptPair.mk (vStr "b") (vStr "Blue")] }
      rfl rfl rfl (Or.inr (Or.inl rfl))).1
      (OptPair.mk (vStr "r") (vStr "Red")) rfl).trans rfl,
    ((c8_thm momentFmt 0 (vObj [("color", vStr "g")]) "color"
      [("color", { key := "color", type := "select", values := some [OptPair.mk (vStr "r") (vStr "Red"), OptPair.mk (vStr "b") (vStr "Blue")] })]
      { key := "color", type := "select", values := some [OptPair.mk (vStr "r") (vStr "Red"), OptPair.mk (vStr "b") (vStr "Blue")] }
      rfl rfl rfl (Or.inr (Or.inl rfl))).2 rfl).trans rfl⟩

/-- C9 counterexample: a protected datagrid with an empty stored list
renders the protected mask, not the empty table with its empty header
row. -/
theorem c9_counterexample :
    (renderComponentValue momentFmt 1 (vObj [("g", vArr [])]) "g"
      [("g", { key := "g", type := "datagrid", «protected» := true })]).1.value
      = vStr "--- PROTECTED ---" ∧
    vStr "--- PROTECTED ---"
      ≠ vStr "<table border=\"1\" style=\"width:100%\"><tr></tr></table>" :=
  ⟨rfl, by simp⟩

/-- C9 amended: a non-protected, non-multiple datagrid whose stored value
is an empty list or missing renders — with no error, the renderer being a
total function — to the table with an empty header row and zero data
rows, and the schema comes back untouched. -/
theorem c9_thm (mf : JsVal → String → String) (f : Nat) (d : JsVal) (key : String)
    (s : Schema) (c : Component) (h : lookupComp s key = some c)
    (ht : c.type = "datagrid") (hm : c.multiple = false) (hp : c.«protected» = false)
    (hv : jsGet d key = vUndefined ∨ jsGet d key = vArr []) :
    renderComponentValue mf (f + 1) d key s
      = (⟨labelOf c, vStr "<table border=\"1\" style=\"width:100%\"><tr></tr></table>"⟩, s) := by
  rcases hv with hv | hv <;>
  · rw [renderComponentValue]
    simp only [h, hm, Bool.false_eq_true, if_false, hp, ht, hv, truthy]
    rfl

/-- C9 witness: the amended theorem applied to a concrete datagrid with
an empty row list. -/
theorem c9_witness :
    (renderComponentValue momentFmt 1 (vObj [("g", vArr [])]) "g"
      [("g", { key := "g", type := "datagrid" })])
      = (⟨"g", vStr "<table border=\"1\" style=\"width:100%\"><tr></tr></table>"⟩,
        [("g", { key := "g", type := "datagrid" })]) :=
  (c9_thm momentFmt 0 (vObj [("g", vArr [])]) "g"
    [("g", { key := "g", type := "datagrid" })] { key := "g", type := "datagrid" }
    rfl rfl rfl rfl (Or.inr rfl)).trans rfl

/-- Replacing every dot by `.data.` and then scanning left-to-right
replacing each `.data.` by a dot recovers the original character list:
each inserted `.data.` is consumed exactly where it was inserted. -/
theorem dataToDot_dotToData : ∀ cs : List Char, dataToDotL (dotToDataL cs) = cs := by
  intro cs
  induction cs with
  | nil => rfl
  | cons c cs ih =>
    rw [dotToDataL]
    by_cases hc : c = '.'
    · rw [if_pos hc, hc, dataToDotL, ih]
    · rw [if_neg hc, dataToDotL.eq_def]
      split
      · rename_i heq
        exact absurd heq (by simp)
      · rename_i heq
        injection heq with h1 h2
        exact absurd h1 hc
      · rename_i hne heq
        injection heq with h1 h2
        subst h1
        rw [← h2, ih]

/-- C10: converting a dotted form-component key to a submission key and
back is the identity — in fact the hypothesis that no segment is the
literal `data` is not even needed: the left-to-right scan of
`getFormComponentKey` consumes exactly the occurrences of `.data.` that
`getSubmissionKey` inserted. -/
theorem c10_thm (k : String) (_h : "data" ∉ splitSegs k) :
    getFormComponentKey (getSubmissionKey k) = k := by
  rw [getSubmissionKey, getFormComponentKey]
  show String.mk (dataToDotL (dotToDataL k.data)) = k
  rw [dataToDot_dotToData]

/-- C10 witness: the round trip on the key `user.name`, whose submission
form is `user.data.name`. -/
theorem c10_witness :
    "data" ∉ splitSegs "user.name" ∧
    getSubmissionKey "user.name" = "user.data.name" ∧
    getFormComponentKey (getSubmissionKey "user.name") = "user.name" :=
  ⟨by decide, rfl, c10_thm "user.name" (by decide)⟩

end Formio
